import Mathlib

/-
Verification of the entity tracking/decoding engine in src/local.ts.

The JavaScript numbers of the source are modelled as real numbers; the
module-level `entities` Map is modelled as a function from entity id to an
optionally tracked entity, threaded explicitly through the handlers; event
emission is modelled by returning the list of emitted domain events, each
recording the entity value at emission time.
-/

noncomputable section

-- #region Unit conversion (src/local.ts lines 91-131)

/-- Truncation toward zero on the reals, the rounding used by the JavaScript
remainder operator. -/
def rtrunc (x : ℝ) : ℤ :=
  if 0 ≤ x then ⌊x⌋ else ⌈x⌉

/-- The JavaScript remainder `numerator % denominator` on (finite) numbers:
the remainder of truncating division, carrying the sign of the numerator. -/
def jsRem (numerator denominator : ℝ) : ℝ :=
  numerator - denominator * (rtrunc (numerator / denominator) : ℝ)

/-- `euclidianMod` from src/local.ts: the native remainder, shifted up by the
denominator when negative. -/
def euclidianMod (numerator denominator : ℝ) : ℝ :=
  if jsRem numerator denominator < 0 then jsRem numerator denominator + denominator
  else jsRem numerator denominator

def PI : ℝ := Real.pi

def TAU : ℝ := 2 * PI

def DEG_TO_RAD : ℝ := TAU / 360

def RAD_TO_DEG : ℝ := 360 / TAU

def NOTCH_BYTE_TO_RAD : ℝ := 360 / 256

def NOTCH_BYTE_VELOCITY_TO_BPS : ℝ := 1 / 8000

def toRadians (angle : ℝ) : ℝ := angle * DEG_TO_RAD

def toDegrees (angle : ℝ) : ℝ := angle * RAD_TO_DEG

def decodeNotchianYaw (deg : ℝ) : ℝ := euclidianMod (PI - toRadians deg) TAU

def decodeNotchianYawByte (byte : ℝ) : ℝ := decodeNotchianYaw (byte * NOTCH_BYTE_TO_RAD)

def decodeNotchianPitch (deg : ℝ) : ℝ := euclidianMod (toRadians (-deg) + PI) TAU - PI

def decodeNotchianPitchByte (byte : ℝ) : ℝ := decodeNotchianPitch (byte * NOTCH_BYTE_TO_RAD)

def decodeNotchianVelocityByte (byte : ℝ) : ℝ := byte * NOTCH_BYTE_VELOCITY_TO_BPS

-- #endregion

-- #region Helper lemmas on euclidianMod

theorem euclidianMod_nonneg_lt (n d : ℝ) (hd : 0 < d) :
    0 ≤ euclidianMod n d ∧ euclidianMod n d < d := by
  have hdne : d ≠ 0 := ne_of_gt hd
  have hmul : d * (n / d) = n := by field_simp
  have hrem : jsRem n d = d * (n / d - (rtrunc (n / d) : ℝ)) := by
    unfold jsRem
    rw [mul_sub, hmul]
  rcases le_or_lt 0 (n / d) with hq | hq
  · have ht : rtrunc (n / d) = ⌊n / d⌋ := if_pos hq
    have hf0 : (0 : ℝ) ≤ n / d - (⌊n / d⌋ : ℝ) := by
      have := Int.floor_le (n / d)
      linarith
    have hf1 : n / d - (⌊n / d⌋ : ℝ) < 1 := by
      have := Int.lt_floor_add_one (n / d)
      linarith
    have h0 : 0 ≤ jsRem n d := by
      rw [hrem, ht]
      exact mul_nonneg hd.le hf0
    have h1 : jsRem n d < d := by
      rw [hrem, ht]
      have := mul_lt_mul_of_pos_left hf1 hd
      simpa using this
    unfold euclidianMod
    rw [if_neg (not_lt.mpr h0)]
    exact ⟨h0, h1⟩
  · have ht : rtrunc (n / d) = ⌈n / d⌉ := if_neg (not_le.mpr hq)
    have hc0 : n / d - (⌈n / d⌉ : ℝ) ≤ 0 := by
      have := Int.le_ceil (n / d)
      linarith
    have hc1 : -1 < n / d - (⌈n / d⌉ : ℝ) := by
      have := Int.ceil_lt_add_one (n / d)
      linarith
    have h0 : jsRem n d ≤ 0 := by
      rw [hrem, ht]
      have := mul_le_mul_of_nonneg_left hc0 hd.le
      simpa using this
    have h1 : -d < jsRem n d := by
      rw [hrem, ht]
      have := mul_lt_mul_of_pos_left hc1 hd
      have hmo : d * (-1 : ℝ) = -d := by ring
      linarith [hmo ▸ this]
    unfold euclidianMod
    rcases lt_or_ge (jsRem n d) 0 with hneg | hpos
    · rw [if_pos hneg]
      constructor <;> linarith
    · rw [if_neg (not_lt.mpr hpos)]
      have hz : jsRem n d = 0 := le_antisymm h0 hpos
      constructor <;> linarith

theorem euclidianMod_sub_eq_int_mul (n d : ℝ) :
    ∃ k : ℤ, euclidianMod n d - n = (k : ℝ) * d := by
  rcases lt_or_ge (jsRem n d) 0 with h | h
  · refine ⟨1 - rtrunc (n / d), ?_⟩
    unfold euclidianMod
    rw [if_pos h]
    unfold jsRem
    push_cast
    ring
  · refine ⟨-rtrunc (n / d), ?_⟩
    unfold euclidianMod
    rw [if_neg (not_lt.mpr h)]
    unfold jsRem
    push_cast
    ring

-- #endregion

-- #region Data model

structure Vec3 where
  x : ℝ
  y : ℝ
  z : ℝ

/-- The absolute update `position.set(x, y, z)` of the external vector type. -/
def Vec3.set (_v : Vec3) (x y z : ℝ) : Vec3 := ⟨x, y, z⟩

/-- The relative update `position.translate(dx, dy, dz)` of the external
vector type. -/
def Vec3.translate (v : Vec3) (dx dy dz : ℝ) : Vec3 := ⟨v.x + dx, v.y + dy, v.z + dz⟩

/-- A tracked entity. Fields that the source may leave unassigned are
`Option`-valued, `none` standing for the JavaScript `undefined`. -/
structure Entity where
  id : Int
  uuid : Option String
  type : Option String
  entityType : Option Int
  name : Option String
  displayName : Option String
  kind : Option String
  mobType : Option String
  height : Option ℝ
  width : Option ℝ
  position : Vec3
  yaw : ℝ
  pitch : ℝ
  velocity : Vec3
  isValid : Bool

/-- Modelled from the spec: the external prismarine entity constructor
`new Entity(id)` (an out-of-scope collaborator of src/local.ts), producing a
fresh entity for `id` with default/unset fields, valid until destroyed. -/
def Entity.fresh (id : Int) : Entity :=
  { id := id
    uuid := none
    type := none
    entityType := none
    name := none
    displayName := none
    kind := none
    mobType := none
    height := none
    width := none
    position := ⟨0, 0, 0⟩
    yaw := 0
    pitch := 0
    velocity := ⟨0, 0, 0⟩
    isValid := true }

/-- One entry of the type-registry lookup table `registry.entities`. -/
structure EntityTypeData where
  type : String
  id : Int
  name : String
  displayName : String
  category : String
  height : Option ℝ
  width : Option ℝ

/-- The protocol feature flags queried through `registry.supportFeature`. -/
inductive FeatureName where
  | fixedPointPosition
  | doublePosition
  | fixedPointDelta

/-- The read-only registry collaborator: type lookup table and feature
query. -/
structure Registry where
  entities : Int → Option EntityTypeData
  supportFeature : FeatureName → Bool

/-- The module-level `entities` Map, as a function from id to the optionally
tracked entity. -/
abbrev EntityMap := Int → Option Entity

/-- `entities.set(id, e)`. -/
def mapInsert (m : EntityMap) (id : Int) (e : Entity) : EntityMap :=
  fun i => if i = id then some e else m i

/-- `entities.delete(id)`. -/
def mapDelete (m : EntityMap) (id : Int) : EntityMap :=
  fun i => if i = id then none else m i

/-- `getEntity` from src/local.ts: lazy lookup, creating and storing a fresh
entity when the id is untracked. Returns the entity together with the map
after the call. -/
def getEntity (m : EntityMap) (id : Int) : Entity × EntityMap :=
  match m id with
  | some e => (e, m)
  | none => (Entity.fresh id, mapInsert m id (Entity.fresh id))

/-- `setEntityDataByType` from src/local.ts. -/
def setEntityDataByType (reg : Registry) (entity : Entity) (typeId : Int) : Entity :=
  match reg.entities typeId with
  | some data =>
    { entity with
      type := some data.type
      displayName := some data.displayName
      entityType := some data.id
      name := some data.name
      kind := some data.category
      height := data.height
      width := data.width }
  | none =>
    { entity with
      type := some "other"
      entityType := some typeId
      mobType := some "unknown"
      displayName := some "unknown"
      name := some "unknown"
      kind := some "unknown" }

/-- The raw pose payload (`PacketPhysicsState` in src/local.ts). -/
structure PacketPhysicsState where
  x : ℝ
  y : ℝ
  z : ℝ
  yaw : ℝ
  pitch : ℝ
  velocityX : ℝ
  velocityY : ℝ
  velocityZ : ℝ

/-- `setEntityPose` from src/local.ts. -/
def setEntityPose (reg : Registry) (entity : Entity) (pose : PacketPhysicsState) : Entity :=
  let e1 :=
    if reg.supportFeature FeatureName.fixedPointPosition then
      { entity with position := entity.position.set (pose.x / 32) (pose.y / 32) (pose.z / 32) }
    else if reg.supportFeature FeatureName.doublePosition then
      { entity with position := entity.position.set pose.x pose.y pose.z }
    else entity
  { e1 with
    yaw := decodeNotchianYawByte pose.yaw
    pitch := decodeNotchianPitchByte pose.pitch
    velocity := ⟨decodeNotchianVelocityByte pose.velocityX,
                 decodeNotchianVelocityByte pose.velocityY,
                 decodeNotchianVelocityByte pose.velocityZ⟩ }

/-- The entity value produced by `addEntity` for the stored id. -/
def spawnedEntity (reg : Registry) (m : EntityMap) (id : Int) (uuid : String)
    (type : Int) (pose : PacketPhysicsState) : Entity :=
  setEntityPose reg
    (setEntityDataByType reg { (getEntity m id).1 with uuid := some uuid } type) pose

/-- `addEntity` from src/local.ts: fetch or create, set the uuid, classify by
type, apply the pose. The mutated entity stays stored under its id. -/
def addEntity (reg : Registry) (m : EntityMap) (id : Int) (uuid : String)
    (type : Int) (pose : PacketPhysicsState) : EntityMap :=
  mapInsert (getEntity m id).2 id (spawnedEntity reg m id uuid type pose)

-- #endregion

-- #region Packets and events

structure DownstreamSpawnEntityPacketData where
  entityId : Int
  objectUUID : String
  type : Int
  x : ℝ
  y : ℝ
  z : ℝ
  pitch : ℝ
  yaw : ℝ
  headPitch : ℝ
  objectData : Int
  velocityX : ℝ
  velocityY : ℝ
  velocityZ : ℝ

structure DownstreamEntityVelocityPacketData where
  entityId : Int
  velocityX : ℝ
  velocityY : ℝ
  velocityZ : ℝ

structure DownstreamEntityDestroyPacketData where
  entityIds : List Int

structure DownstreamRelativeEntityMovePacketData where
  entityId : Int
  dX : ℝ
  dY : ℝ
  dZ : ℝ
  yaw : ℝ
  pitch : ℝ
  onGround : Bool

structure DownstreamEntityLookPacketData where
  entityId : Int
  yaw : ℝ
  pitch : ℝ
  onGround : Bool

structure DownstreamEntityTeleportPacketData where
  entityId : Int
  x : ℝ
  y : ℝ
  z : ℝ
  yaw : ℝ
  pitch : ℝ
  onGround : Bool

/-- A domain event emitted through `edt.emit`, recording the entity value at
emission time. The packet argument of the emission is not modelled. -/
inductive Event where
  | spawn (entity : Entity)
  | destroy (entity : Entity)
  | velocity (entity : Entity)
  | position (entity : Entity)
  | look (entity : Entity)
  | teleport (entity : Entity)

-- #endregion

-- #region Packet handlers (src/local.ts lines 196-312)

/-- The view of a spawn packet's data as the pose payload, as the source
passes `packet.data` where a `PacketPhysicsState` is expected. -/
def toPose (p : DownstreamSpawnEntityPacketData) : PacketPhysicsState :=
  ⟨p.x, p.y, p.z, p.yaw, p.pitch, p.velocityX, p.velocityY, p.velocityZ⟩

/-- The `spawn_entity` handler: `addEntity` then emit `entity.spawn` with the
freshly fetched entity. -/
def onSpawnEntity (reg : Registry) (m : EntityMap) (p : DownstreamSpawnEntityPacketData) :
    EntityMap × List Event :=
  let m1 := addEntity reg m p.entityId p.objectUUID p.type (toPose p)
  let g := getEntity m1 p.entityId
  (g.2, [Event.spawn g.1])

/-- In the source, `getEntity` returns `Entity` and never `undefined`, so the
strict-equality test `entity === undefined` in the `entity_velocity` handler
can never be true; it is modelled faithfully as this constant-false test. -/
def entityIsUndefined (_entity : Entity) : Bool := false

/-- The entity value after the velocity handler's mutation. -/
def velocityUpdatedEntity (m : EntityMap) (p : DownstreamEntityVelocityPacketData) : Entity :=
  { (getEntity m p.entityId).1 with
    velocity := ⟨decodeNotchianVelocityByte p.velocityX,
                 decodeNotchianVelocityByte p.velocityY,
                 decodeNotchianVelocityByte p.velocityZ⟩ }

/-- The `entity_velocity` handler: fetch (lazily creating), the unreachable
unknown-entity check, set the velocity, emit `entity.velocity`. -/
def onEntityVelocity (m : EntityMap) (p : DownstreamEntityVelocityPacketData) :
    Except String (EntityMap × List Event) :=
  let g := getEntity m p.entityId
  if entityIsUndefined g.1 then
    Except.error ("Unknown entity: " ++ toString p.entityId)
  else
    Except.ok (mapInsert g.2 p.entityId (velocityUpdatedEntity m p),
      [Event.velocity (velocityUpdatedEntity m p)])

/-- The `entity_destroy` handler: for each listed id in order, fetch (lazily
creating), set `isValid` to false, delete the id, emit `entity.destroy`. -/
def onEntityDestroy (m : EntityMap) : List Int → EntityMap × List Event
  | [] => (m, [])
  | id :: rest =>
    let g := getEntity m id
    let e := { g.1 with isValid := false }
    let r := onEntityDestroy (mapDelete g.2 id) rest
    (r.1, Event.destroy e :: r.2)

/-- The entity value after the relative-move handler's mutation. -/
def relMoveEntity (reg : Registry) (m : EntityMap)
    (p : DownstreamRelativeEntityMovePacketData) : Entity :=
  let g1 := (getEntity m p.entityId).1
  if reg.supportFeature FeatureName.fixedPointDelta then
    { g1 with position := g1.position.translate (p.dX / 32) (p.dY / 32) (p.dZ / 32) }
  else
    { g1 with position :=
        g1.position.translate (p.dX / (128 * 32)) (p.dY / (128 * 32)) (p.dZ / (128 * 32)) }

/-- `onRelativeEntityMovement` from src/local.ts: translate the position by
the feature-scaled delta, emit `entity.position`. -/
def onRelativeEntityMovement (reg : Registry) (m : EntityMap)
    (p : DownstreamRelativeEntityMovePacketData) : EntityMap × List Event :=
  (mapInsert (getEntity m p.entityId).2 p.entityId (relMoveEntity reg m p),
   [Event.position (relMoveEntity reg m p)])

/-- The entity value after the look handler's mutation. -/
def lookEntity (m : EntityMap) (p : DownstreamEntityLookPacketData) : Entity :=
  { (getEntity m p.entityId).1 with
    yaw := decodeNotchianYawByte p.yaw
    pitch := decodeNotchianPitchByte p.pitch }

/-- `onEntityLook` from src/local.ts: set yaw and pitch from the packet's
angle bytes, emit `entity.look`. -/
def onEntityLook (m : EntityMap) (p : DownstreamEntityLookPacketData) :
    EntityMap × List Event :=
  (mapInsert (getEntity m p.entityId).2 p.entityId (lookEntity m p),
   [Event.look (lookEntity m p)])

/-- The entity value after the teleport handler's mutation. -/
def teleportEntity (reg : Registry) (m : EntityMap)
    (p : DownstreamEntityTeleportPacketData) : Entity :=
  let g1 := (getEntity m p.entityId).1
  let e1 :=
    if reg.supportFeature FeatureName.fixedPointPosition then
      { g1 with position := g1.position.set (p.x / 32) (p.y / 32) (p.z / 32) }
    else if reg.supportFeature FeatureName.doublePosition then
      { g1 with position := g1.position.set p.x p.y p.z }
    else g1
  { e1 with yaw := decodeNotchianYawByte p.yaw, pitch := decodeNotchianPitchByte p.pitch }

/-- The `entity_teleport` handler: feature-gated absolute position, yaw and
pitch from angle bytes, emit `entity.teleport`. -/
def onEntityTeleport (reg : Registry) (m : EntityMap)
    (p : DownstreamEntityTeleportPacketData) : EntityMap × List Event :=
  (mapInsert (getEntity m p.entityId).2 p.entityId (teleportEntity reg m p),
   [Event.teleport (teleportEntity reg m p)])

-- #endregion

-- #region Claim theorems: unit conversion

/-- Claim C7: for every real n and every positive d, euclidianMod(n, d) is
non-negative and congruent to n modulo d, that is euclidianMod(n, d) − n is
an integer multiple of d. -/
theorem euclidianMod_nonneg_and_congruent (n d : ℝ) (hd : 0 < d) :
    0 ≤ euclidianMod n d ∧ ∃ k : ℤ, euclidianMod n d - n = (k : ℝ) * d :=
  ⟨(euclidianMod_nonneg_lt n d hd).1, euclidianMod_sub_eq_int_mul n d⟩

theorem euclidianMod_nonneg_and_congruent_witness :
    0 ≤ euclidianMod 5 3 ∧ ∃ k : ℤ, euclidianMod 5 3 - 5 = (k : ℝ) * 3 :=
  euclidianMod_nonneg_and_congruent 5 3 (by norm_num)

/-- Claim C8: decodeNotchianVelocityByte(b) equals b / 8000 exactly for every
input, with decodeNotchianVelocityByte(0) = 0 and
decodeNotchianVelocityByte(8000) = 1. -/
theorem decodeNotchianVelocityByte_exact (b : ℝ) :
    decodeNotchianVelocityByte b = b / 8000 ∧
    decodeNotchianVelocityByte 0 = 0 ∧ decodeNotchianVelocityByte 8000 = 1 := by
  unfold decodeNotchianVelocityByte NOTCH_BYTE_VELOCITY_TO_BPS
  refine ⟨by ring, by norm_num, by norm_num⟩

/-- Claim C6: for every integer byte 0 through 255, decodeNotchianYawByte is
euclidianMod(π − toRadians(byte × 360/256), 2π) and lies in [0, 2π), and
decodeNotchianPitchByte lies in [−π, π). -/
theorem decode_byte_angle_ranges (b : ℤ) (_h0 : 0 ≤ b) (_h255 : b ≤ 255) :
    decodeNotchianYawByte (b : ℝ) =
      euclidianMod (Real.pi - toRadians ((b : ℝ) * (360 / 256))) (2 * Real.pi) ∧
    0 ≤ decodeNotchianYawByte (b : ℝ) ∧
    decodeNotchianYawByte (b : ℝ) < 2 * Real.pi ∧
    -Real.pi ≤ decodeNotchianPitchByte (b : ℝ) ∧
    decodeNotchianPitchByte (b : ℝ) < Real.pi := by
  have hyaw := euclidianMod_nonneg_lt (Real.pi - toRadians ((b : ℝ) * (360 / 256)))
    (2 * Real.pi) (by positivity)
  have hpitch := euclidianMod_nonneg_lt (toRadians (-((b : ℝ) * (360 / 256))) + Real.pi)
    (2 * Real.pi) (by positivity)
  refine ⟨rfl, hyaw.1, hyaw.2, ?_, ?_⟩
  · show -Real.pi ≤
      euclidianMod (toRadians (-((b : ℝ) * (360 / 256))) + Real.pi) (2 * Real.pi) - Real.pi
    linarith [hpitch.1]
  · show euclidianMod (toRadians (-((b : ℝ) * (360 / 256))) + Real.pi) (2 * Real.pi) - Real.pi
      < Real.pi
    linarith [hpitch.2]

theorem decode_byte_angle_ranges_witness :
    0 ≤ decodeNotchianYawByte ((0 : ℤ) : ℝ) ∧
    decodeNotchianYawByte ((0 : ℤ) : ℝ) < 2 * Real.pi ∧
    -Real.pi ≤ decodeNotchianPitchByte ((0 : ℤ) : ℝ) ∧
    decodeNotchianPitchByte ((0 : ℤ) : ℝ) < Real.pi := by
  have h := decode_byte_angle_ranges 0 (by norm_num) (by norm_num)
  exact ⟨h.2.1, h.2.2.1, h.2.2.2.1, h.2.2.2.2⟩

-- #endregion

-- #region Claim theorems: pose policy and frame effects

/-- Claim C2: for every pose application (spawn pose via setEntityPose and
teleport), exactly one of three mutually exclusive position outcomes occurs,
in priority order: fixedPointPosition active sets position to raw (x,y,z)/32;
else doublePosition active sets it to raw (x,y,z) unchanged; else the
position is left unmutated. -/
theorem position_policy_spawn_teleport (reg : Registry) (e : Entity)
    (p : PacketPhysicsState) (m : EntityMap) (tp : DownstreamEntityTeleportPacketData) :
    ((reg.supportFeature FeatureName.fixedPointPosition = true →
        (setEntityPose reg e p).position = ⟨p.x / 32, p.y / 32, p.z / 32⟩) ∧
     (reg.supportFeature FeatureName.fixedPointPosition = false →
        reg.supportFeature FeatureName.doublePosition = true →
        (setEntityPose reg e p).position = ⟨p.x, p.y, p.z⟩) ∧
     (reg.supportFeature FeatureName.fixedPointPosition = false →
        reg.supportFeature FeatureName.doublePosition = false →
        (setEntityPose reg e p).position = e.position)) ∧
    (∃ e', (onEntityTeleport reg m tp).1 tp.entityId = some e' ∧
      (reg.supportFeature FeatureName.fixedPointPosition = true →
        e'.position = ⟨tp.x / 32, tp.y / 32, tp.z / 32⟩) ∧
      (reg.supportFeature FeatureName.fixedPointPosition = false →
        reg.supportFeature FeatureName.doublePosition = true →
        e'.position = ⟨tp.x, tp.y, tp.z⟩) ∧
      (reg.supportFeature FeatureName.fixedPointPosition = false →
        reg.supportFeature FeatureName.doublePosition = false →
        e'.position = (getEntity m tp.entityId).1.position)) := by
  refine ⟨⟨?_, ?_, ?_⟩, teleportEntity reg m tp, ?_, ?_, ?_, ?_⟩
  · intro h
    simp [setEntityPose, h, Vec3.set]
  · intro h1 h2
    simp [setEntityPose, h1, h2, Vec3.set]
  · intro h1 h2
    simp [setEntityPose, h1, h2]
  · simp [onEntityTeleport, mapInsert]
  · intro h
    simp [teleportEntity, h, Vec3.set]
  · intro h1 h2
    simp [teleportEntity, h1, h2, Vec3.set]
  · intro h1 h2
    simp [teleportEntity, h1, h2]

theorem position_policy_spawn_teleport_witness :
    (setEntityPose ⟨fun _ => none, fun _ => false⟩ (Entity.fresh 0)
        ⟨320, 0, -320, 0, 0, 0, 0, 0⟩).position = (Entity.fresh 0).position :=
  (position_policy_spawn_teleport ⟨fun _ => none, fun _ => false⟩ (Entity.fresh 0)
      ⟨320, 0, -320, 0, 0, 0, 0, 0⟩ (fun _ => none) ⟨0, 0, 0, 0, 0, 0, false⟩).1.2.2 rfl rfl

/-- Claim C3: the relative-move handler only translates the entity's
position, by raw delta / 32 with fixedPointDelta active and by raw delta /
(128 × 32) otherwise; in particular raw delta (320, 0, −320) translates by
(10, 0, −10) with the feature active and by (10/128, 0, −10/128) without. -/
theorem rel_move_translates_only (reg : Registry) (m : EntityMap)
    (p : DownstreamRelativeEntityMovePacketData) :
    ∃ e', (onRelativeEntityMovement reg m p).1 p.entityId = some e' ∧
      (reg.supportFeature FeatureName.fixedPointDelta = true →
        e' = { (getEntity m p.entityId).1 with
               position := (getEntity m p.entityId).1.position.translate
                 (p.dX / 32) (p.dY / 32) (p.dZ / 32) }) ∧
      (reg.supportFeature FeatureName.fixedPointDelta = false →
        e' = { (getEntity m p.entityId).1 with
               position := (getEntity m p.entityId).1.position.translate
                 (p.dX / (128 * 32)) (p.dY / (128 * 32)) (p.dZ / (128 * 32)) }) ∧
      (p.dX = 320 → p.dY = 0 → p.dZ = -320 →
        (reg.supportFeature FeatureName.fixedPointDelta = true →
          e'.position = (getEntity m p.entityId).1.position.translate 10 0 (-10)) ∧
        (reg.supportFeature FeatureName.fixedPointDelta = false →
          e'.position = (getEntity m p.entityId).1.position.translate
            (10 / 128) 0 (-10 / 128))) := by
  refine ⟨relMoveEntity reg m p, by simp [onRelativeEntityMovement, mapInsert], ?_, ?_, ?_⟩
  · intro h
    simp [relMoveEntity, h]
  · intro h
    simp [relMoveEntity, h]
  · intro hx hy hz
    constructor
    · intro h
      simp only [relMoveEntity, h, if_true, hx, hy, hz, Vec3.translate]
      norm_num
    · intro h
      simp only [relMoveEntity, h, Bool.false_eq_true, if_false, hx, hy, hz, Vec3.translate]
      norm_num

theorem rel_move_translates_only_witness :
    ∃ e', (onRelativeEntityMovement
        ⟨fun _ => none, fun _ => true⟩ (fun _ => none) ⟨9, 320, 0, -320, 0, 0, false⟩).1 9 =
          some e' ∧
      e'.position = (getEntity (fun _ => none) 9).1.position.translate 10 0 (-10) := by
  obtain ⟨e', hlook, -, -, hconc⟩ := rel_move_translates_only
    ⟨fun _ => none, fun _ => true⟩ (fun _ => none) ⟨9, 320, 0, -320, 0, 0, false⟩
  exact ⟨e', hlook, (hconc rfl rfl rfl).1 rfl⟩

/-- Claim C10: handling entity_look for a tracked id changes only that
entity's yaw and pitch (to the decoded angle bytes); every other registry
entry is unchanged, and the single entity.look event carries the updated
entity. -/
theorem entity_look_frame (m : EntityMap) (p : DownstreamEntityLookPacketData)
    (e0 : Entity) (h : m p.entityId = some e0) :
    (onEntityLook m p).1 p.entityId =
      some { e0 with yaw := decodeNotchianYawByte p.yaw,
                     pitch := decodeNotchianPitchByte p.pitch } ∧
    (∀ i, i ≠ p.entityId → (onEntityLook m p).1 i = m i) ∧
    (onEntityLook m p).2 =
      [Event.look { e0 with yaw := decodeNotchianYawByte p.yaw,
                            pitch := decodeNotchianPitchByte p.pitch }] := by
  have hg : getEntity m p.entityId = (e0, m) := by simp [getEntity, h]
  refine ⟨?_, ?_, ?_⟩
  · simp [onEntityLook, lookEntity, hg, mapInsert]
  · intro i hi
    simp [onEntityLook, mapInsert, hg, hi]
  · simp [onEntityLook, lookEntity, hg]

theorem entity_look_frame_witness :
    (onEntityLook (mapInsert (fun _ => none) 1 (Entity.fresh 1)) ⟨1, 0, 0, false⟩).1 1 =
      some { Entity.fresh 1 with yaw := decodeNotchianYawByte 0,
                                 pitch := decodeNotchianPitchByte 0 } :=
  (entity_look_frame (mapInsert (fun _ => none) 1 (Entity.fresh 1)) ⟨1, 0, 0, false⟩
    (Entity.fresh 1) (by simp [mapInsert])).1

-- #endregion

-- #region Claim theorems: spawn classification and velocity handler

theorem setEntityPose_classification (reg : Registry) (e : Entity)
    (pose : PacketPhysicsState) :
    (setEntityPose reg e pose).name = e.name ∧
    (setEntityPose reg e pose).type = e.type ∧
    (setEntityPose reg e pose).entityType = e.entityType ∧
    (setEntityPose reg e pose).displayName = e.displayName ∧
    (setEntityPose reg e pose).kind = e.kind := by
  cases hf : reg.supportFeature FeatureName.fixedPointPosition <;>
    cases hdp : reg.supportFeature FeatureName.doublePosition <;>
      simp [setEntityPose, hf, hdp]

/-- Claim C9: a spawn whose numeric type code is absent from the type
registry succeeds and yields an entity with name "unknown", type "other",
entityType equal to the code, and displayName and kind "unknown"; when the
code is present the classification fields come from the registry entry. -/
theorem spawn_type_classification (reg : Registry) (m : EntityMap)
    (p : DownstreamSpawnEntityPacketData) :
    ∃ e, (onSpawnEntity reg m p).1 p.entityId = some e ∧
      (reg.entities p.type = none →
        e.name = some "unknown" ∧ e.type = some "other" ∧
        e.entityType = some p.type ∧ e.displayName = some "unknown" ∧
        e.kind = some "unknown") ∧
      (∀ d, reg.entities p.type = some d →
        e.name = some d.name ∧ e.type = some d.type ∧ e.entityType = some d.id ∧
        e.displayName = some d.displayName ∧ e.kind = some d.category) := by
  have hm1 : addEntity reg m p.entityId p.objectUUID p.type (toPose p) p.entityId =
      some (spawnedEntity reg m p.entityId p.objectUUID p.type (toPose p)) := by
    simp [addEntity, mapInsert]
  have hc := setEntityPose_classification reg
    (setEntityDataByType reg
      { (getEntity m p.entityId).1 with uuid := some p.objectUUID } p.type) (toPose p)
  refine ⟨spawnedEntity reg m p.entityId p.objectUUID p.type (toPose p), ?_, ?_, ?_⟩
  · simp [onSpawnEntity, getEntity, hm1]
  · intro hnone
    refine ⟨?_, ?_, ?_, ?_, ?_⟩ <;>
      simp only [spawnedEntity, hc.1, hc.2.1, hc.2.2.1, hc.2.2.2.1, hc.2.2.2.2] <;>
        simp [setEntityDataByType, hnone]
  · intro d hd
    refine ⟨?_, ?_, ?_, ?_, ?_⟩ <;>
      simp only [spawnedEntity, hc.1, hc.2.1, hc.2.2.1, hc.2.2.2.1, hc.2.2.2.2] <;>
        simp [setEntityDataByType, hd]

theorem spawn_type_classification_witness :
    ∃ e, (onSpawnEntity ⟨fun _ => none, fun _ => false⟩ (fun _ => none)
        ⟨42, "u1", 7, 0, 0, 0, 0, 0, 0, 0, 0, 0, 0⟩).1 42 = some e ∧
      e.name = some "unknown" ∧ e.type = some "other" ∧ e.entityType = some 7 := by
  obtain ⟨e, hl, hno, -⟩ := spawn_type_classification ⟨fun _ => none, fun _ => false⟩
    (fun _ => none) ⟨42, "u1", 7, 0, 0, 0, 0, 0, 0, 0, 0, 0, 0⟩
  obtain ⟨hn, ht, he, -, -⟩ := hno rfl
  exact ⟨e, hl, hn, ht, he⟩

/-- Claim C1 concerns a code bug: because `getEntity` lazily creates, the
velocity handler's unknown-entity check can never fire. Evaluated at the
failing input (empty registry, velocity packet for id 5) the handler returns
successfully, leaves id 5 tracked and emits an event — it neither raises an
error nor refrains from creating the entity; the relative-move handler shows
the same lazy creation. -/
theorem velocity_handler_never_errors :
    (∃ m' evs, onEntityVelocity (fun _ => none) ⟨5, 0, 0, 0⟩ = Except.ok (m', evs) ∧
      (m' 5).isSome = true ∧ evs ≠ []) ∧
    ((onRelativeEntityMovement ⟨fun _ => none, fun _ => false⟩ (fun _ => none)
        ⟨5, 0, 0, 0, 0, 0, false⟩).1 5).isSome = true := by
  constructor
  · refine ⟨mapInsert (getEntity (fun _ => none) 5).2 5
        (velocityUpdatedEntity (fun _ => none) ⟨5, 0, 0, 0⟩),
      [Event.velocity (velocityUpdatedEntity (fun _ => none) ⟨5, 0, 0, 0⟩)], ?_, ?_, ?_⟩
    · simp [onEntityVelocity, entityIsUndefined]
    · simp [mapInsert]
    · simp
  · simp [onRelativeEntityMovement, mapInsert]

-- #endregion

-- #region Claim theorems: destroy batch

/-- The registry stores every entity under its own id. -/
def mapWF (m : EntityMap) : Prop := ∀ i e, m i = some e → e.id = i

theorem mapInsert_wf (m : EntityMap) (id : Int) (e : Entity) (hm : mapWF m)
    (he : e.id = id) : mapWF (mapInsert m id e) := by
  intro i x hx
  unfold mapInsert at hx
  by_cases hi : i = id
  · subst hi
    rw [if_pos rfl] at hx
    injection hx with hex
    rw [← hex]
    exact he
  · rw [if_neg hi] at hx
    exact hm i x hx

theorem mapDelete_wf (m : EntityMap) (id : Int) (hm : mapWF m) :
    mapWF (mapDelete m id) := by
  intro i x hx
  unfold mapDelete at hx
  by_cases hi : i = id
  · rw [if_pos hi] at hx
    exact absurd hx (by simp)
  · rw [if_neg hi] at hx
    exact hm i x hx

theorem getEntity_fst_id (m : EntityMap) (id : Int) (hm : mapWF m) :
    (getEntity m id).1.id = id := by
  cases h : m id with
  | none => simp [getEntity, h, Entity.fresh]
  | some e =>
    have h1 : (getEntity m id).1 = e := by simp [getEntity, h]
    rw [h1]
    exact hm id e h

theorem getEntity_snd_wf (m : EntityMap) (id : Int) (hm : mapWF m) :
    mapWF (getEntity m id).2 := by
  cases h : m id with
  | none =>
    have h2 : (getEntity m id).2 = mapInsert m id (Entity.fresh id) := by
      simp [getEntity, h]
    rw [h2]
    exact mapInsert_wf m id (Entity.fresh id) hm (by simp [Entity.fresh])
  | some e =>
    have h2 : (getEntity m id).2 = m := by simp [getEntity, h]
    rw [h2]
    exact hm

theorem onEntityDestroy_fst_absent (ids : List Int) :
    ∀ (m : EntityMap) (id : Int), m id = none → (onEntityDestroy m ids).1 id = none := by
  induction ids with
  | nil =>
    intro m id h
    simpa [onEntityDestroy] using h
  | cons j rest ih =>
    intro m id h
    simp only [onEntityDestroy]
    apply ih
    unfold mapDelete
    by_cases hij : id = j
    · rw [if_pos hij]
    · rw [if_neg hij]
      cases hj : m j with
      | some e => simp [getEntity, hj, h]
      | none => simp [getEntity, hj, mapInsert, hij, h]

/-- Claim C4: an entity_destroy packet processes its ids in listed order;
each id yields exactly one entity.destroy event, positionally matching the
id list, whose entity is invalidated (isValid false) and carries that id;
afterwards none of the listed ids is tracked. -/
theorem entity_destroy_batch (m : EntityMap) (ids : List Int) (hm : mapWF m) :
    List.Forall₂
      (fun id ev => ∃ en, ev = Event.destroy en ∧ en.isValid = false ∧ en.id = id)
      ids (onEntityDestroy m ids).2 ∧
    (onEntityDestroy m ids).2.length = ids.length ∧
    ∀ id, id ∈ ids → (onEntityDestroy m ids).1 id = none := by
  induction ids generalizing m with
  | nil => simp [onEntityDestroy]
  | cons j rest ih =>
    have hwf2 : mapWF (mapDelete (getEntity m j).2 j) :=
      mapDelete_wf (getEntity m j).2 j (getEntity_snd_wf m j hm)
    obtain ⟨ihF, ihL, ihM⟩ := ih (mapDelete (getEntity m j).2 j) hwf2
    refine ⟨?_, ?_, ?_⟩
    · simp only [onEntityDestroy]
      exact List.Forall₂.cons
        ⟨{ (getEntity m j).1 with isValid := false }, rfl, rfl,
          getEntity_fst_id m j hm⟩ ihF
    · simp only [onEntityDestroy, List.length_cons, ihL]
    · intro id hid
      rcases List.mem_cons.mp hid with hj | hr
      · subst hj
        simp only [onEntityDestroy]
        exact onEntityDestroy_fst_absent rest (mapDelete (getEntity m id).2 id) id
          (by simp [mapDelete])
      · simp only [onEntityDestroy]
        exact ihM id hr

theorem entity_destroy_batch_witness :
    (onEntityDestroy (fun _ => none) [1, 2, 3]).2.length = 3 ∧
    (onEntityDestroy (fun _ => none) [1, 2, 3]).1 2 = none := by
  have h := entity_destroy_batch (fun _ => none) [1, 2, 3]
    (fun i e he => Option.noConfusion he)
  exact ⟨by rw [h.2.1]; rfl, h.2.2 2 (by simp)⟩

/-- Counterexample to claim C5 as stated: destroying the untracked id 7 is
not observation-free — it emits an entity.destroy event. -/
theorem destroy_absent_id_emits_event :
    (onEntityDestroy (fun _ => none) [7]).2 ≠ [] := by
  simp [onEntityDestroy]

/-- Claim C5 (amended): destroying an id absent from the registry leaves the
registry contents unchanged (the lazily created entity is deleted again),
but it is not fully effect-free: exactly one entity.destroy event is
emitted, carrying a freshly created entity for that id with isValid false. -/
theorem destroy_absent_id_no_corruption (m : EntityMap) (id : Int)
    (h : m id = none) :
    (∀ i, (onEntityDestroy m [id]).1 i = m i) ∧
    (onEntityDestroy m [id]).2 =
      [Event.destroy { Entity.fresh id with isValid := false }] := by
  have hg : getEntity m id = (Entity.fresh id, mapInsert m id (Entity.fresh id)) := by
    simp [getEntity, h]
  constructor
  · intro i
    by_cases hi : i = id
    · subst hi
      simp [onEntityDestroy, hg, mapDelete, h]
    · simp [onEntityDestroy, hg, mapDelete, mapInsert, hi]
  · simp [onEntityDestroy, hg]

theorem destroy_absent_id_no_corruption_witness :
    (onEntityDestroy (fun _ => none) [7]).1 0 = none ∧
    (onEntityDestroy (fun _ => none) [7]).2 =
      [Event.destroy { Entity.fresh 7 with isValid := false }] := by
  have h := destroy_absent_id_no_corruption (fun _ => none) 7 rfl
  exact ⟨h.1 0, h.2⟩

-- #endregion

end
